import Mathlib

/-!
Verification of the value-marshaling bridge of mini-v8: the tagged value
descriptors, the reference-counting ownership protocol for opaque engine
handles, and the result/exception decomposition (src/ffi.rs), together with
the error taxonomy and its script-value normalization (src/error.rs).

The embedded V8 engine sits behind the `mv8_*` entry points; it is an
external collaborator, so its reference-counting side is modelled as an
explicit `EngineState` threaded through every operation that crosses the
boundary, recording each acquire (`mv8_value_ptr_clone`) and release
(`mv8_value_ptr_drop`). Rust drop glue is made explicit: each type with a
destructor gets a `drop`-style function on `EngineState`, applied exactly
where Rust would run the destructor.
-/

namespace MV8

/-- Opaque engine value handle (`ValuePtr = *const c_void`), compared by
identity only; modelled as a natural-number identity. -/
abbrev ValuePtr := Nat

/-- Opaque engine instance handle (`Interface = *const c_void`). -/
abbrev Interface := Nat

/-- Alias for the host string type, to disambiguate from the `String`
value variant inside `Value`-namespaced declarations. -/
abbrev Str := String

/-- An `f64` payload crossing the boundary. The bridge never computes on
numbers, it only copies them bitwise through the descriptor union, so the
bit pattern is carried as an opaque natural number. -/
abbrev F64 := Nat

/-- Modelled from the spec: the host-side `MiniV8` struct (outside src/)
holds the one `Interface` handle of its engine instance. -/
structure MiniV8 where
  interface : Interface
deriving DecidableEq

/-- The engine-side state visible to this bridge, modelled from the spec
(§4.2, §6): per-handle reference counts, the running totals of acquire
(`mv8_value_ptr_clone`) and release (`mv8_value_ptr_drop`) calls, the
string properties stored on engine objects, and a fresh-handle supply. -/
structure EngineState where
  refCount : ValuePtr → Nat
  cloneCalls : Nat
  dropCalls : Nat
  props : List (ValuePtr × String × String)
  nextPtr : ValuePtr

/-- Modelled from the spec: `mv8_value_ptr_clone` (engine entry point,
spec §6 `clone_handle`) performs one acquire on the handle and returns a
reference with the same logical identity. -/
def mv8_value_ptr_clone (s : EngineState) (_interface : Interface) (value : ValuePtr) :
    ValuePtr × EngineState :=
  (value,
   { s with
     refCount := fun q => if q = value then s.refCount q + 1 else s.refCount q,
     cloneCalls := s.cloneCalls + 1 })

/-- Modelled from the spec: `mv8_value_ptr_drop` (engine entry point,
spec §6 `drop_handle`) performs one release on the handle. -/
def mv8_value_ptr_drop (s : EngineState) (value_ptr : ValuePtr) : EngineState :=
  { s with
    refCount := fun q => if q = value_ptr then s.refCount q - 1 else s.refCount q,
    dropCalls := s.dropCalls + 1 }

/-- Modelled from the spec: `mv8_object_new` (engine entry point, spec §6
`new_object`) allocates a fresh engine object handle, owned by the caller
with one reference. -/
def mv8_object_new (s : EngineState) (_interface : Interface) : ValuePtr × EngineState :=
  (s.nextPtr,
   { s with
     refCount := fun q => if q = s.nextPtr then 1 else s.refCount q,
     nextPtr := s.nextPtr + 1 })

/-- Modelled from the spec: `mv8_object_set` (engine entry point, spec §6
`set_property`), restricted to the string-keyed, string-valued updates the
code under verification performs. -/
def mv8_object_set_str (s : EngineState) (object : ValuePtr) (key val : String) : EngineState :=
  { s with props := (object, key, val) :: s.props }

/-- Read back a string property stored on an engine object (most recent
`mv8_object_set_str` wins). -/
def getProp (s : EngineState) (object : ValuePtr) (key : String) : Option String :=
  (s.props.find? (fun e => e.1 == object && e.2.1 == key)).map (fun e => e.2.2)

/-- Discriminant tag of the value descriptor (`ValueDescTag`, src/ffi.rs). -/
inductive ValueDescTag where
  | Null
  | Undefined
  | Number
  | Boolean
  | Array
  | Function
  | Date
  | Object
  | String
deriving DecidableEq

/-- Payload union of the value descriptor (`ValueDescPayload`, src/ffi.rs).
The Rust union is untagged; the source only ever reads the field matching
the descriptor's tag, which this tagged sum represents faithfully. -/
inductive ValueDescPayload where
  | byte : Nat → ValueDescPayload
  | number : F64 → ValueDescPayload
  | value_ptr : ValuePtr → ValueDescPayload
deriving DecidableEq

/-- Union field read `payload.byte`; the source performs it only when the
tag is `Boolean` (or as a dummy inline payload). -/
def ValueDescPayload.getByte : ValueDescPayload → Nat
  | .byte b => b
  | _ => 0

/-- Union field read `payload.number`; the source performs it only when the
tag is `Number` or `Date`. -/
def ValueDescPayload.getNumber : ValueDescPayload → F64
  | .number n => n
  | _ => 0

/-- Union field read `payload.value_ptr`; the source performs it only when
the tag is handle-backed. -/
def ValueDescPayload.getPtr : ValueDescPayload → ValuePtr
  | .value_ptr p => p
  | _ => 0

/-- Tagged value descriptor (`ValueDesc`, src/ffi.rs). -/
structure ValueDesc where
  payload : ValueDescPayload
  tag : ValueDescTag
deriving DecidableEq

/-- `ValueDesc::new` (src/ffi.rs). -/
def ValueDesc.new (tag : ValueDescTag) (payload : ValueDescPayload) : ValueDesc :=
  { tag := tag, payload := payload }

/-- The handle-backed tags: exactly those whose descriptor owns one
reference on its `value_ptr` payload. -/
def ValueDescTag.is_handle : ValueDescTag → Bool
  | .String | .Array | .Function | .Object => true
  | _ => false

/-- `impl Drop for ValueDesc` (src/ffi.rs): releases the owned handle for
the handle-backed tags, no-op otherwise. Applied wherever Rust would run
the destructor of a not-consumed descriptor. -/
def ValueDesc.drop (self : ValueDesc) (s : EngineState) : EngineState :=
  match self.tag with
  | .String | .Array | .Function | .Object => mv8_value_ptr_drop s self.payload.getPtr
  | _ => s

/-- Result/exception descriptor (`TryCatchDesc`, src/ffi.rs); `is_exception`
is a `u8`. -/
structure TryCatchDesc where
  value_desc : ValueDesc
  is_exception : Nat
deriving DecidableEq

/-- Managed reference to a V8-owned value (`Ref`, src/ffi.rs): the owning
instance plus the owned handle. -/
structure Ref where
  mv8 : MiniV8
  value_ptr : ValuePtr
deriving DecidableEq

/-- `Ref::new` (src/ffi.rs): takes ownership of an already-produced handle,
no acquire performed. -/
def Ref.new (mv8 : MiniV8) (value_ptr : ValuePtr) : Ref :=
  { mv8 := mv8, value_ptr := value_ptr }

/-- `Ref::from_value_desc` (src/ffi.rs): takes ownership of the
descriptor's handle. The descriptor is wrapped in `ManuallyDrop` in the
source, so `ValueDesc::drop` is *not* run on it — accordingly no
`ValueDesc.drop` is applied here and no engine call is made. -/
def Ref.from_value_desc (mv8 : MiniV8) (desc : ValueDesc) : Ref :=
  { mv8 := mv8, value_ptr := desc.payload.getPtr }

/-- `impl Clone for Ref` (src/ffi.rs): one engine acquire, producing a new
reference with its own destruction obligation. -/
def Ref.clone (self : Ref) (s : EngineState) : Ref × EngineState :=
  let (value_ptr, s') := mv8_value_ptr_clone s self.mv8.interface self.value_ptr
  ({ mv8 := self.mv8, value_ptr := value_ptr }, s')

/-- `impl Drop for Ref` (src/ffi.rs): exactly one engine release. -/
def Ref.dropRef (self : Ref) (s : EngineState) : EngineState :=
  mv8_value_ptr_drop s self.value_ptr

/-- Modelled from the spec: the host-visible `Value` enum (outside src/),
tagged union over 9 variants (spec §3); each handle-backed variant wraps a
managed reference (the source's `String`/`Array`/`Function`/`Object`
newtype wrappers around `Ref` are flattened). -/
inductive Value where
  | Undefined
  | Null
  | Boolean : Bool → Value
  | Number : F64 → Value
  | Date : F64 → Value
  | String : Ref → Value
  | Array : Ref → Value
  | Function : Ref → Value
  | Object : Ref → Value
deriving DecidableEq

/-- Modelled from the spec: `Value::inner_ref` (outside src/) returns the
managed reference of a handle-backed variant, nothing for scalar
variants; this is how `value_to_desc` (src/ffi.rs) reads the
owning-instance back-reference. -/
def Value.inner_ref : Value → Option Ref
  | .String r | .Array r | .Function r | .Object r => some r
  | _ => none

/-- Modelled from the spec: `Value::type_name` (outside src/), used only to
format the display string of `Error::Value`; no claim depends on its
output. -/
def Value.type_name : Value → Str
  | .Undefined => "undefined"
  | .Null => "null"
  | .Boolean _ => "boolean"
  | .Number _ => "number"
  | .Date _ => "date"
  | .String _ => "string"
  | .Array _ => "array"
  | .Function _ => "function"
  | .Object _ => "object"

/-- Rust drop glue of `Value`: a handle-backed variant drops its contained
`Ref` (one release); scalar variants have no destructor. -/
def Value.dropValue (self : Value) (s : EngineState) : EngineState :=
  match self.inner_ref with
  | some r => r.dropRef s
  | none => s

/-- The error taxonomy (`Error`, src/error.rs). `&'static str` fields are
strings; the `Box<dyn StdError>` of `ExternalError` is modelled by its
display string, the only thing the code under verification reads from it. -/
inductive Error where
  | ToJsConversionError (from_ to_ : String)
  | FromJsConversionError (from_ to_ : String)
  | RecursiveMutCallback
  | NotAFunction
  | ExternalError (message : String)
  | Value (value : Value)
deriving DecidableEq

/-- `impl fmt::Display for Error` (src/error.rs). -/
def Error.toString : Error → String
  | .ToJsConversionError from_ to_ => "error converting " ++ from_ ++ " to JavaScript " ++ to_
  | .FromJsConversionError from_ to_ => "error converting JavaScript " ++ from_ ++ " to " ++ to_
  | .RecursiveMutCallback => "mutable callback called recursively"
  | .NotAFunction => "tried to a call a non-function"
  | .ExternalError message => message
  | .Value v => "JavaScript runtime error (" ++ v.type_name ++ ")"

/-- `Result<T>` (src/error.rs): `std::result::Result` specialized to
`Error`. -/
abbrev Result (α : Type) := Except Error α

/-- `desc_to_value` (src/ffi.rs): lifts a descriptor to a `Value`. For
handle-backed tags ownership of the handle transfers into the new `Ref`
via `Ref.from_value_desc`; no engine call is made on any path, so the
function is pure in `EngineState`. -/
def desc_to_value (mv8 : MiniV8) (desc : ValueDesc) : Value :=
  match desc.tag with
  | .Null => Value.Null
  | .Undefined => Value.Undefined
  | .Boolean => Value.Boolean (desc.payload.getByte != 0)
  | .Number => Value.Number desc.payload.getNumber
  | .Date => Value.Date desc.payload.getNumber
  | .Array => Value.Array (Ref.from_value_desc mv8 desc)
  | .Function => Value.Function (Ref.from_value_desc mv8 desc)
  | .Object => Value.Object (Ref.from_value_desc mv8 desc)
  | .String => Value.String (Ref.from_value_desc mv8 desc)

/-- `desc_to_result` (src/ffi.rs): the embedded descriptor is lifted on
both branches (so the function makes no engine calls), and the exception
flag is compared against 0. -/
def desc_to_result (mv8 : MiniV8) (desc : TryCatchDesc) : Result Value :=
  let value := desc_to_value mv8 desc.value_desc
  if desc.is_exception = 0 then Except.ok value else Except.error (Error.Value value)

/-- `desc_to_result_noval` (src/ffi.rs). On the success branch the
`TryCatchDesc` goes out of scope not consumed, so Rust runs the drop glue
of its `value_desc` field: `ValueDesc.drop` is applied there. On the
exception branch the descriptor is consumed by `desc_to_value`. -/
def desc_to_result_noval (mv8 : MiniV8) (desc : TryCatchDesc) (s : EngineState) :
    Result Unit × EngineState :=
  let is_exception := desc.is_exception = 1
  if !is_exception then (Except.ok (), desc.value_desc.drop s)
  else (Except.error (Error.Value (desc_to_value mv8 desc.value_desc)), s)

/-- `desc_to_result_val` (src/ffi.rs): keeps the payload as a descriptor on
success (ownership moves to the caller), lifts it on exception; no engine
call on either branch. -/
def desc_to_result_val (mv8 : MiniV8) (desc : TryCatchDesc) : Result ValueDesc :=
  let is_exception := desc.is_exception = 1
  let d := desc.value_desc
  if !is_exception then Except.ok d else Except.error (Error.Value (desc_to_value mv8 d))

/-- The inner `ref_val` helper of `value_to_desc` (src/ffi.rs): one engine
acquire through the reference's own interface. -/
def ref_val (r : Ref) (s : EngineState) : ValuePtr × EngineState :=
  mv8_value_ptr_clone s r.mv8.interface r.value_ptr

/-- The `match *value` body of `value_to_desc` (src/ffi.rs), after the
same-instance check has passed. -/
def value_to_desc_go (value : Value) (s : EngineState) : ValueDesc × EngineState :=
  match value with
  | .Undefined => (ValueDesc.new .Undefined (.byte 0), s)
  | .Null => (ValueDesc.new .Null (.byte 0), s)
  | .Boolean b => (ValueDesc.new .Boolean (.byte (if b then 1 else 0)), s)
  | .Number f => (ValueDesc.new .Number (.number f), s)
  | .Date f => (ValueDesc.new .Date (.number f), s)
  | .Array r =>
    let (p, s') := ref_val r s
    (ValueDesc.new .Array (.value_ptr p), s')
  | .Function r =>
    let (p, s') := ref_val r s
    (ValueDesc.new .Function (.value_ptr p), s')
  | .Object r =>
    let (p, s') := ref_val r s
    (ValueDesc.new .Object (.value_ptr p), s')
  | .String r =>
    let (p, s') := ref_val r s
    (ValueDesc.new .String (.value_ptr p), s')

/-- `value_to_desc` (src/ffi.rs): takes the `Value` by shared reference
(the source value is not consumed). The cross-instance check panics in
the source; panic is modelled as `none`. -/
def value_to_desc (mv8 : MiniV8) (value : Value) (s : EngineState) :
    Option (ValueDesc × EngineState) :=
  match value.inner_ref with
  | some r =>
    if r.mv8.interface ≠ mv8.interface then none
    else some (value_to_desc_go value s)
  | none => some (value_to_desc_go value s)

/-- Modelled from the spec: `MiniV8::create_object` (outside src/) wraps a
fresh engine object handle in a managed reference. -/
def MiniV8.create_object (mv8 : MiniV8) (s : EngineState) : Ref × EngineState :=
  let (p, s') := mv8_object_new s mv8.interface
  (Ref.new mv8 p, s')

/-- Modelled from the spec: `Object::set` (outside src/) restricted to the
string-keyed, string-valued writes `Error::to_value` performs. -/
def Object.set_str (object : Ref) (key val : String) (s : EngineState) : EngineState :=
  mv8_object_set_str s object.value_ptr key val

/-- `Error::to_value` (src/error.rs): `Error::Value` passes its value
through unchanged; the three conversion/call errors build a
`{name: "TypeError", message}` object; every remaining kind builds a
`{name: "Error", message}` object. -/
def Error.to_value (self : Error) (mv8 : MiniV8) (s : EngineState) : MV8.Value × EngineState :=
  match self with
  | Error.Value value => (value, s)
  | Error.ToJsConversionError _ _ | Error.FromJsConversionError _ _ | Error.NotAFunction =>
    let (object, s1) := mv8.create_object s
    let s2 := Object.set_str object "name" "TypeError" s1
    let s3 := Object.set_str object "message" self.toString s2
    (Value.Object object, s3)
  | _ =>
    let (object, s1) := mv8.create_object s
    let s2 := Object.set_str object "name" "Error" s1
    let s3 := Object.set_str object "message" self.toString s2
    (Value.Object object, s3)

/-- The "name" property of the object `Error::to_value` produces (or
nothing when the result is not an object). -/
def to_value_name (e : Error) (mv8 : MiniV8) (s : EngineState) : Option String :=
  match e.to_value mv8 s with
  | (Value.Object r, s') => getProp s' r.value_ptr "name"
  | _ => none

/-- Building N clones of a managed reference, left to right
(`Ref::clone`, src/ffi.rs, iterated). -/
def cloneN : Nat → Ref → EngineState → List Ref × EngineState
  | 0, _, s => ([], s)
  | n + 1, r, s =>
    let (r', s') := r.clone s
    let (rs, s'') := cloneN n r s'
    (r' :: rs, s'')

/-- Dropping a list of managed references, each exactly once
(`Drop for Ref`, src/ffi.rs, iterated). -/
def dropRefs : List Ref → EngineState → EngineState
  | [], s => s
  | r :: rs, s => dropRefs rs (r.dropRef s)

/-- A concrete initial engine state, used to instantiate theorems at
concrete inputs. -/
def s0 : EngineState :=
  { refCount := fun _ => 0, cloneCalls := 0, dropCalls := 0, props := [], nextPtr := 0 }

/-- C2: `desc_to_result` returns `Ok` of the lifted payload value when the
exception flag is unset (zero), and `Err (Error.Value v)` with `v` exactly
the lifted payload value when the flag is set (nonzero). -/
theorem desc_to_result_spec (mv8 : MiniV8) (desc : TryCatchDesc) :
    desc_to_result mv8 desc =
      if desc.is_exception = 0 then Except.ok (desc_to_value mv8 desc.value_desc)
      else Except.error (Error.Value (desc_to_value mv8 desc.value_desc)) := rfl

/-- C9: the three decomposition operations normalize the exception flag
differently: `desc_to_result` succeeds exactly when the flag byte is 0
(any nonzero byte is an exception), while `desc_to_result_noval` and
`desc_to_result_val` fail exactly when the byte is 1; hence on a
descriptor with flag byte 2, `desc_to_result` returns `Err` while
`desc_to_result_noval` returns `Ok`. -/
theorem exception_flag_normalization (mv8 : MiniV8) (s : EngineState) (d : TryCatchDesc) :
    ((∃ v, desc_to_result mv8 d = Except.ok v) ↔ d.is_exception = 0) ∧
    ((desc_to_result_noval mv8 d s).1 = Except.ok () ↔ d.is_exception ≠ 1) ∧
    ((∃ vd, desc_to_result_val mv8 d = Except.ok vd) ↔ d.is_exception ≠ 1) ∧
    (d.is_exception = 2 →
      desc_to_result mv8 d = Except.error (Error.Value (desc_to_value mv8 d.value_desc)) ∧
      (desc_to_result_noval mv8 d s).1 = Except.ok ()) := by
  refine ⟨?_, ?_, ?_, ?_⟩
  · by_cases h : d.is_exception = 0 <;> simp [desc_to_result, h]
  · by_cases h : d.is_exception = 1 <;> simp [desc_to_result_noval, h]
  · by_cases h : d.is_exception = 1 <;> simp [desc_to_result_val, h]
  · intro h2
    simp [desc_to_result, desc_to_result_noval, h2]

/-- C9, instantiated: a concrete descriptor with exception byte 2 is an
exception for `desc_to_result` but a success for `desc_to_result_noval`. -/
theorem exception_flag_normalization_witness :
    desc_to_result ⟨0⟩ ⟨ValueDesc.new .Null (.byte 0), 2⟩ =
      Except.error (Error.Value (desc_to_value ⟨0⟩ (ValueDesc.new .Null (.byte 0)))) ∧
    (desc_to_result_noval ⟨0⟩ ⟨ValueDesc.new .Null (.byte 0), 2⟩ s0).1 = Except.ok () :=
  (exception_flag_normalization ⟨0⟩ s0 ⟨ValueDesc.new .Null (.byte 0), 2⟩).2.2.2 rfl

/-- C6: for every scalar `Value` variant, lowering performs no engine call
(the state is returned unchanged) and lifting the resulting descriptor
returns the original value: `desc_to_value (value_to_desc v) = v`. -/
theorem scalar_roundtrip (mv8 : MiniV8) (v : Value) (s : EngineState)
    (h : v.inner_ref = none) :
    ∃ d, value_to_desc mv8 v s = some (d, s) ∧ desc_to_value mv8 d = v := by
  cases v with
  | Undefined => exact ⟨_, rfl, rfl⟩
  | Null => exact ⟨_, rfl, rfl⟩
  | Boolean b => cases b <;> exact ⟨_, rfl, rfl⟩
  | Number f => exact ⟨_, rfl, rfl⟩
  | Date f => exact ⟨_, rfl, rfl⟩
  | String r => simp [Value.inner_ref] at h
  | Array r => simp [Value.inner_ref] at h
  | Function r => simp [Value.inner_ref] at h
  | Object r => simp [Value.inner_ref] at h

/-- C6, instantiated at `Boolean true`. -/
theorem scalar_roundtrip_witness :
    ∃ d, value_to_desc ⟨0⟩ (Value.Boolean true) s0 = some (d, s0) ∧
      desc_to_value ⟨0⟩ d = Value.Boolean true :=
  scalar_roundtrip ⟨0⟩ (Value.Boolean true) s0 rfl

/-- C4: lowering a handle-backed `Value` whose owning instance differs from
the target instance is the modelled panic (`none`), not a recoverable
result; and whenever the value's owning instance (if any) equals the
target, lowering succeeds — the panic branch is unreachable. -/
theorem cross_instance_fatal (mv8 : MiniV8) (v : Value) (s : EngineState) :
    (∀ r, v.inner_ref = some r → r.mv8.interface ≠ mv8.interface →
      value_to_desc mv8 v s = none) ∧
    ((∀ r, v.inner_ref = some r → r.mv8.interface = mv8.interface) →
      (value_to_desc mv8 v s).isSome = true) := by
  constructor
  · intro r hr hne
    simp [value_to_desc, hr, hne]
  · intro h
    cases hv : v.inner_ref with
    | none => simp [value_to_desc, hv]
    | some r => simp [value_to_desc, hv, h r hv]

/-- C4, instantiated: a value owned by instance 1 lowered into instance 0
panics; a same-instance value lowers successfully. -/
theorem cross_instance_fatal_witness :
    value_to_desc ⟨0⟩ (Value.Object (Ref.new ⟨1⟩ 5)) s0 = none ∧
    (value_to_desc ⟨0⟩ (Value.Object (Ref.new ⟨0⟩ 5)) s0).isSome = true :=
  ⟨(cross_instance_fatal ⟨0⟩ (Value.Object (Ref.new ⟨1⟩ 5)) s0).1 (Ref.new ⟨1⟩ 5) rfl
      (by decide),
   (cross_instance_fatal ⟨0⟩ (Value.Object (Ref.new ⟨0⟩ 5)) s0).2
      (by intro r hr; cases hr; rfl)⟩

/-- Dropping a list of references increments the release-call total by
exactly the number of references dropped. -/
theorem dropRefs_dropCalls (l : List Ref) (s : EngineState) :
    (dropRefs l s).dropCalls = s.dropCalls + l.length := by
  induction l generalizing s with
  | nil => simp [dropRefs]
  | cons r rs ih =>
    simp [dropRefs, ih, Ref.dropRef, mv8_value_ptr_drop]
    omega

/-- Dropping references performs no acquire call. -/
theorem dropRefs_cloneCalls (l : List Ref) (s : EngineState) :
    (dropRefs l s).cloneCalls = s.cloneCalls := by
  induction l generalizing s with
  | nil => simp [dropRefs]
  | cons r rs ih => simp [dropRefs, ih, Ref.dropRef, mv8_value_ptr_drop]

/-- Building `n` clones produces `n` references, performs exactly `n`
acquire calls and no release call. -/
theorem cloneN_spec (n : Nat) (r : Ref) (s : EngineState) :
    (cloneN n r s).1.length = n ∧
    (cloneN n r s).2.cloneCalls = s.cloneCalls + n ∧
    (cloneN n r s).2.dropCalls = s.dropCalls := by
  induction n generalizing s with
  | zero => simp [cloneN]
  | succ n ih =>
    obtain ⟨h1, h2, h3⟩ := ih ({ s with
      refCount := fun q => if q = r.value_ptr then s.refCount q + 1 else s.refCount q,
      cloneCalls := s.cloneCalls + 1 })
    refine ⟨?_, ?_, ?_⟩
    · simp [cloneN, Ref.clone, mv8_value_ptr_clone, h1]
    · simp [cloneN, Ref.clone, mv8_value_ptr_clone, h2]
      omega
    · simp [cloneN, Ref.clone, mv8_value_ptr_clone, h3]

/-- C1: building N clones of a managed reference and then dropping all
N+1 references (the original plus the clones) performs exactly N+1 engine
release calls — one per acquire, the N clone acquires plus the original
ownership — never more and never fewer, and exactly N acquire calls in
total. -/
theorem ref_clone_drop_balance (n : Nat) (r : Ref) (s : EngineState) :
    (cloneN n r s).2.cloneCalls = s.cloneCalls + n ∧
    (dropRefs (r :: (cloneN n r s).1) (cloneN n r s).2).dropCalls = s.dropCalls + (n + 1) ∧
    (dropRefs (r :: (cloneN n r s).1) (cloneN n r s).2).cloneCalls = s.cloneCalls + n := by
  obtain ⟨hlen, hclone, hdrop⟩ := cloneN_spec n r s
  refine ⟨hclone, ?_, ?_⟩
  · rw [dropRefs_dropCalls, hdrop]
    simp [hlen]
  · rw [dropRefs_cloneCalls, hclone]

/-- C3: lifting a handle-backed descriptor transfers the descriptor's one
owned handle into the new managed reference — the lift is pure in
`EngineState` (no acquire, no release: `desc_to_value` does not even take
a state), the resulting value wraps exactly the descriptor's handle, and
destroying the lifted value afterwards releases that handle exactly once
(so the consumed descriptor's suppressed destructor cannot release it a
second time): the net engine effect of lift-then-destroy is one release. -/
theorem lift_transfers_ownership (mv8 : MiniV8) (desc : ValueDesc) (p : ValuePtr)
    (s : EngineState) (htag : desc.tag.is_handle = true)
    (hp : desc.payload = ValueDescPayload.value_ptr p) :
    (desc_to_value mv8 desc).inner_ref = some (Ref.new mv8 p) ∧
    (desc_to_value mv8 desc).dropValue s = mv8_value_ptr_drop s p ∧
    ((desc_to_value mv8 desc).dropValue s).cloneCalls = s.cloneCalls ∧
    ((desc_to_value mv8 desc).dropValue s).dropCalls = s.dropCalls + 1 := by
  obtain ⟨pl, tg⟩ := desc
  cases tg <;> simp [ValueDescTag.is_handle] at htag <;>
    simp_all [desc_to_value, Ref.from_value_desc, Value.inner_ref, Value.dropValue,
      Ref.dropRef, Ref.new, ValueDescPayload.getPtr, mv8_value_ptr_drop]

/-- C3, instantiated at an `Object` descriptor owning handle 7. -/
theorem lift_transfers_ownership_witness :
    (desc_to_value ⟨0⟩ (ValueDesc.new .Object (.value_ptr 7))).inner_ref =
      some (Ref.new ⟨0⟩ 7) ∧
    (desc_to_value ⟨0⟩ (ValueDesc.new .Object (.value_ptr 7))).dropValue s0 =
      mv8_value_ptr_drop s0 7 ∧
    ((desc_to_value ⟨0⟩ (ValueDesc.new .Object (.value_ptr 7))).dropValue s0).cloneCalls =
      s0.cloneCalls ∧
    ((desc_to_value ⟨0⟩ (ValueDesc.new .Object (.value_ptr 7))).dropValue s0).dropCalls =
      s0.dropCalls + 1 :=
  lift_transfers_ownership ⟨0⟩ (ValueDesc.new .Object (.value_ptr 7)) 7 s0 rfl rfl

/-- C5: lowering a handle-backed `Value` (of the same instance) performs
exactly one engine acquire on the underlying handle and no release; the
source value is taken by shared reference (not consumed), the descriptor
stores a handle with the same identity, and the handle's reference count
increases by exactly one. -/
theorem lower_clones_handle (mv8 : MiniV8) (v : Value) (r : Ref) (s : EngineState)
    (h : v.inner_ref = some r) (hiface : r.mv8.interface = mv8.interface) :
    ∃ d s', value_to_desc mv8 v s = some (d, s') ∧
      d.payload = ValueDescPayload.value_ptr r.value_ptr ∧
      d.tag.is_handle = true ∧
      s'.cloneCalls = s.cloneCalls + 1 ∧
      s'.dropCalls = s.dropCalls ∧
      s'.refCount r.value_ptr = s.refCount r.value_ptr + 1 := by
  cases v with
  | String r0 =>
    simp only [Value.inner_ref, Option.some.injEq] at h
    subst h
    have hmain : value_to_desc mv8 (Value.String r0) s =
        some (ValueDesc.new .String (.value_ptr r0.value_ptr),
          { s with
            refCount := fun q => if q = r0.value_ptr then s.refCount q + 1 else s.refCount q,
            cloneCalls := s.cloneCalls + 1 }) := by
      simp [value_to_desc, Value.inner_ref, hiface, value_to_desc_go, ref_val,
        mv8_value_ptr_clone]
    exact ⟨_, _, hmain, rfl, rfl, rfl, rfl, by simp⟩
  | Array r0 =>
    simp only [Value.inner_ref, Option.some.injEq] at h
    subst h
    have hmain : value_to_desc mv8 (Value.Array r0) s =
        some (ValueDesc.new .Array (.value_ptr r0.value_ptr),
          { s with
            refCount := fun q => if q = r0.value_ptr then s.refCount q + 1 else s.refCount q,
            cloneCalls := s.cloneCalls + 1 }) := by
      simp [value_to_desc, Value.inner_ref, hiface, value_to_desc_go, ref_val,
        mv8_value_ptr_clone]
    exact ⟨_, _, hmain, rfl, rfl, rfl, rfl, by simp⟩
  | Function r0 =>
    simp only [Value.inner_ref, Option.some.injEq] at h
    subst h
    have hmain : value_to_desc mv8 (Value.Function r0) s =
        some (ValueDesc.new .Function (.value_ptr r0.value_ptr),
          { s with
            refCount := fun q => if q = r0.value_ptr then s.refCount q + 1 else s.refCount q,
            cloneCalls := s.cloneCalls + 1 }) := by
      simp [value_to_desc, Value.inner_ref, hiface, value_to_desc_go, ref_val,
        mv8_value_ptr_clone]
    exact ⟨_, _, hmain, rfl, rfl, rfl, rfl, by simp⟩
  | Object r0 =>
    simp only [Value.inner_ref, Option.some.injEq] at h
    subst h
    have hmain : value_to_desc mv8 (Value.Object r0) s =
        some (ValueDesc.new .Object (.value_ptr r0.value_ptr),
          { s with
            refCount := fun q => if q = r0.value_ptr then s.refCount q + 1 else s.refCount q,
            cloneCalls := s.cloneCalls + 1 }) := by
      simp [value_to_desc, Value.inner_ref, hiface, value_to_desc_go, ref_val,
        mv8_value_ptr_clone]
    exact ⟨_, _, hmain, rfl, rfl, rfl, rfl, by simp⟩
  | _ => simp [Value.inner_ref] at h

/-- C5, instantiated at a same-instance `String` value wrapping handle 3. -/
theorem lower_clones_handle_witness :
    ∃ d s', value_to_desc ⟨0⟩ (Value.String (Ref.new ⟨0⟩ 3)) s0 = some (d, s') ∧
      d.payload = ValueDescPayload.value_ptr 3 ∧
      d.tag.is_handle = true ∧
      s'.cloneCalls = s0.cloneCalls + 1 ∧
      s'.dropCalls = s0.dropCalls ∧
      s'.refCount 3 = s0.refCount 3 + 1 :=
  lower_clones_handle ⟨0⟩ (Value.String (Ref.new ⟨0⟩ 3)) (Ref.new ⟨0⟩ 3) s0 rfl rfl

/-- C7: `desc_to_result_noval` on a success descriptor (exception byte 0)
with a handle-backed payload returns `Ok ()` and its entire engine effect
is exactly one release of the payload's owned handle — no leak on the
success path even though the payload value is discarded, and no acquire. -/
theorem unit_result_releases (mv8 : MiniV8) (desc : TryCatchDesc) (p : ValuePtr)
    (s : EngineState) (hexc : desc.is_exception = 0)
    (htag : desc.value_desc.tag.is_handle = true)
    (hp : desc.value_desc.payload = ValueDescPayload.value_ptr p) :
    (desc_to_result_noval mv8 desc s).1 = Except.ok () ∧
    (desc_to_result_noval mv8 desc s).2 = mv8_value_ptr_drop s p ∧
    (desc_to_result_noval mv8 desc s).2.dropCalls = s.dropCalls + 1 ∧
    (desc_to_result_noval mv8 desc s).2.cloneCalls = s.cloneCalls := by
  obtain ⟨⟨pl, tg⟩, exc⟩ := desc
  simp only at hexc htag hp
  subst hexc
  cases tg <;> simp [ValueDescTag.is_handle] at htag <;>
    simp_all [desc_to_result_noval, ValueDesc.drop, ValueDescPayload.getPtr,
      mv8_value_ptr_drop]

/-- C7, instantiated at a success descriptor whose payload is a `String`
handle 9. -/
theorem unit_result_releases_witness :
    (desc_to_result_noval ⟨0⟩ ⟨ValueDesc.new .String (.value_ptr 9), 0⟩ s0).1 =
      Except.ok () ∧
    (desc_to_result_noval ⟨0⟩ ⟨ValueDesc.new .String (.value_ptr 9), 0⟩ s0).2 =
      mv8_value_ptr_drop s0 9 ∧
    (desc_to_result_noval ⟨0⟩ ⟨ValueDesc.new .String (.value_ptr 9), 0⟩ s0).2.dropCalls =
      s0.dropCalls + 1 ∧
    (desc_to_result_noval ⟨0⟩ ⟨ValueDesc.new .String (.value_ptr 9), 0⟩ s0).2.cloneCalls =
      s0.cloneCalls :=
  unit_result_releases ⟨0⟩ ⟨ValueDesc.new .String (.value_ptr 9), 0⟩ 9 s0 rfl rfl rfl

/-- Reading a property back after a string-property write: the written key
returns the written value, any other key falls through. -/
theorem getProp_set_self (s : EngineState) (p : ValuePtr) (k kq v : String) :
    getProp (mv8_object_set_str s p k v) p kq =
      if k == kq then some v else getProp s p kq := by
  by_cases h : k == kq <;> simp [getProp, mv8_object_set_str, List.find?, h]

/-- C8: `Error::to_value` returns the wrapped exception value itself,
unchanged (and with no engine effect), when the error is `Error.Value`;
for every other error kind it returns a `Value.Object` carrying a "name"
property and a "message" property whose value is the error's display
string. -/
theorem error_to_value_spec (e : Error) (mv8 : MiniV8) (s : EngineState) :
    (∀ v, e = Error.Value v → e.to_value mv8 s = (v, s)) ∧
    ((∀ v, e ≠ Error.Value v) →
      ∃ p s', e.to_value mv8 s = (Value.Object (Ref.new mv8 p), s') ∧
        (getProp s' p "name").isSome = true ∧
        getProp s' p "message" = some e.toString) := by
  cases e with
  | Value v0 =>
    refine ⟨?_, ?_⟩
    · intro v h
      cases h
      rfl
    · intro h
      exact absurd rfl (h v0)
  | ToJsConversionError f t =>
    refine ⟨by intro v h; exact Error.noConfusion h, fun _ => ⟨s.nextPtr, _, rfl, ?_, ?_⟩⟩
    · simp [Error.to_value, MiniV8.create_object, mv8_object_new, Object.set_str, Ref.new,
        getProp_set_self]
    · simp [Error.to_value, MiniV8.create_object, mv8_object_new, Object.set_str, Ref.new,
        getProp_set_self]
  | FromJsConversionError f t =>
    refine ⟨by intro v h; exact Error.noConfusion h, fun _ => ⟨s.nextPtr, _, rfl, ?_, ?_⟩⟩
    · simp [Error.to_value, MiniV8.create_object, mv8_object_new, Object.set_str, Ref.new,
        getProp_set_self]
    · simp [Error.to_value, MiniV8.create_object, mv8_object_new, Object.set_str, Ref.new,
        getProp_set_self]
  | RecursiveMutCallback =>
    refine ⟨by intro v h; exact Error.noConfusion h, fun _ => ⟨s.nextPtr, _, rfl, ?_, ?_⟩⟩
    · simp [Error.to_value, MiniV8.create_object, mv8_object_new, Object.set_str, Ref.new,
        getProp_set_self]
    · simp [Error.to_value, MiniV8.create_object, mv8_object_new, Object.set_str, Ref.new,
        getProp_set_self]
  | NotAFunction =>
    refine ⟨by intro v h; exact Error.noConfusion h, fun _ => ⟨s.nextPtr, _, rfl, ?_, ?_⟩⟩
    · simp [Error.to_value, MiniV8.create_object, mv8_object_new, Object.set_str, Ref.new,
        getProp_set_self]
    · simp [Error.to_value, MiniV8.create_object, mv8_object_new, Object.set_str, Ref.new,
        getProp_set_self]
  | ExternalError msg =>
    refine ⟨by intro v h; exact Error.noConfusion h, fun _ => ⟨s.nextPtr, _, rfl, ?_, ?_⟩⟩
    · simp [Error.to_value, MiniV8.create_object, mv8_object_new, Object.set_str, Ref.new,
        getProp_set_self]
    · simp [Error.to_value, MiniV8.create_object, mv8_object_new, Object.set_str, Ref.new,
        getProp_set_self]

/-- C8, instantiated: a passed-through engine exception, and the
`{name, message}` object built for `NotAFunction`. -/
theorem error_to_value_spec_witness :
    (Error.Value Value.Null).to_value ⟨0⟩ s0 = (Value.Null, s0) ∧
    (∃ p s', Error.NotAFunction.to_value ⟨0⟩ s0 = (Value.Object (Ref.new ⟨0⟩ p), s') ∧
      (getProp s' p "name").isSome = true ∧
      getProp s' p "message" = some Error.NotAFunction.toString) :=
  ⟨(error_to_value_spec (Error.Value Value.Null) ⟨0⟩ s0).1 Value.Null rfl,
   (error_to_value_spec Error.NotAFunction ⟨0⟩ s0).2
     (by intro v h; exact Error.noConfusion h)⟩

/-- C10: `Error::to_value` partitions the non-`Value` error kinds into two
script-visible classes: the two conversion errors and `NotAFunction` get
`name = "TypeError"`, while `RecursiveMutCallback` and `ExternalError` get
`name = "Error"`. -/
theorem error_name_partition (mv8 : MiniV8) (s : EngineState) (f t f2 t2 msg : String) :
    to_value_name (Error.ToJsConversionError f t) mv8 s = some "TypeError" ∧
    to_value_name (Error.FromJsConversionError f2 t2) mv8 s = some "TypeError" ∧
    to_value_name Error.NotAFunction mv8 s = some "TypeError" ∧
    to_value_name Error.RecursiveMutCallback mv8 s = some "Error" ∧
    to_value_name (Error.ExternalError msg) mv8 s = some "Error" := by
  refine ⟨?_, ?_, ?_, ?_, ?_⟩ <;>
    simp [to_value_name, Error.to_value, MiniV8.create_object, mv8_object_new,
      Object.set_str, Ref.new, getProp_set_self]

end MV8
